import Mathlib

/-!
Shallow embedding of the MigSafe rule engine (`rules.py`).

SQL text is modelled as `List Char`.  The Python regular expressions of the
rule catalog use only a small fragment of `re` syntax (case-insensitive
literals, `\s+`, `\S+`, `[^;]*`, optional non-capturing groups, word
boundaries `\b` and negative lookahead `(?!...)`), which is embedded as the
inductive type `Pat` together with a backtracking matcher that enumerates
every way a pattern can consume a prefix of the remaining text.  Python's
`re.search` (match anywhere) is `search` below.
-/

namespace MigSafe

/-- ASCII whitespace, as recognized by Python `str.strip`/`str.split` and by
`re`'s `\s` on the ASCII inputs used here: space, `\t`, `\n`, `\r`,
vertical tab `\x0b` and form feed `\x0c`. -/
def isPySpace (c : Char) : Bool :=
  c == ' ' || c == '\t' || c == '\n' || c == '\r' || c == '\x0b' || c == '\x0c'

/-- ASCII word character, as recognized by `re`'s `\b` boundary
(`[A-Za-z0-9_]` on the ASCII inputs used here). -/
def isWordChar (c : Char) : Bool :=
  decide ((97 ≤ c.toNat ∧ c.toNat ≤ 122) ∨ (65 ≤ c.toNat ∧ c.toNat ≤ 90) ∨
    (48 ≤ c.toNat ∧ c.toNat ≤ 57) ∨ c = '_')

/-- ASCII lower-casing, used to implement `re.IGNORECASE` matching. -/
def lowc (c : Char) : Char :=
  if 65 ≤ c.toNat ∧ c.toNat ≤ 90 then Char.ofNat (c.toNat + 32) else c

/-- The regex fragment used by the rule catalog. -/
inductive Pat : Type where
  /-- empty pattern -/
  | eps : Pat
  /-- case-insensitive literal text -/
  | lit : List Char → Pat
  /-- one or more characters of a class (`\s+`, `\S+`) -/
  | plus : (Char → Bool) → Pat
  /-- zero or more characters of a class (`[^;]*`) -/
  | star : (Char → Bool) → Pat
  /-- concatenation -/
  | seq : Pat → Pat → Pat
  /-- optional group `(?:...)?` -/
  | opt : Pat → Pat
  /-- word boundary `\b` (zero width) -/
  | wb : Pat
  /-- negative lookahead `(?!...)` (zero width) -/
  | nla : Pat → Pat

/-- Concatenation of a list of patterns. -/
def cat (ps : List Pat) : Pat := ps.foldr Pat.seq Pat.eps

/-- All ways to consume a non-empty run of characters of class `f`:
after consuming `k ≥ 1` characters the pair is (last consumed char, rest). -/
def splitsPlus (f : Char → Bool) : List Char → List (Option Char × List Char)
  | [] => []
  | c :: cs => if f c then (some c, cs) :: splitsPlus f cs else []

/-- Match a case-insensitive literal at the front of the text; `prev` is the
character immediately before the current position (`none` at the start). -/
def matchLit : List Char → Option Char → List Char → List (Option Char × List Char)
  | [], prev, s => [(prev, s)]
  | _ :: _, _, [] => []
  | w :: ws, _, c :: cs => if lowc w == lowc c then matchLit ws (some c) cs else []

/-- Wordness of the character at a position (start/end of text is non-word). -/
def isWordOpt : Option Char → Bool
  | none => false
  | some c => isWordChar c

/-- `\b` holds between `prev` and the first character of `s`. -/
def atBoundary (prev : Option Char) (s : List Char) : Bool :=
  isWordOpt prev != isWordOpt s.head?

/-- All ways pattern `p` can match a prefix of `s`, given that the character
immediately before `s` is `prev`; each result is (character immediately
before the rest, rest of the text).  Capture-free matching, so the set of
outcomes — not their priority order — determines `re.search` success. -/
def mrun : Pat → Option Char → List Char → List (Option Char × List Char)
  | .eps, prev, s => [(prev, s)]
  | .lit w, prev, s => matchLit w prev s
  | .plus f, _, s => splitsPlus f s
  | .star f, prev, s => (prev, s) :: splitsPlus f s
  | .seq p q, prev, s => (mrun p prev s).flatMap fun pr => mrun q pr.1 pr.2
  | .opt p, prev, s => (prev, s) :: mrun p prev s
  | .wb, prev, s => if atBoundary prev s then [(prev, s)] else []
  | .nla p, prev, s => if (mrun p prev s).isEmpty then [(prev, s)] else []

/-- Does `p` match starting exactly at the current position? -/
def matchesAt (p : Pat) (prev : Option Char) (s : List Char) : Bool :=
  !(mrun p prev s).isEmpty

/-- Try to match `p` at the current position or at any later one. -/
def searchFrom (p : Pat) : Option Char → List Char → Bool
  | prev, [] => matchesAt p prev []
  | prev, c :: cs => matchesAt p prev (c :: cs) || searchFrom p (some c) cs

/-- Python `re.search(pattern, s, re.IGNORECASE)` viewed as a Boolean:
does the pattern match anywhere in `s`? -/
def search (p : Pat) (s : List Char) : Bool :=
  searchFrom p none s

/-- Convenience: the character list of a string literal. -/
def strL (s : String) : List Char := s.data

/-! ## The rule catalog (`RULES` in `rules.py`) -/

/-- One entry of the static rule catalog: a tuple
`(rule id, pattern, severity, message, lock type, base_lock_ms)`. -/
structure Rule where
  id : String
  pat : Pat
  severity : String
  message : String
  lock : String
  base : Option Int

/-- non-whitespace, `\S` -/
def isNonSpace (c : Char) : Bool := !isPySpace c

/-- any character other than a semicolon, `[^;]` -/
def notSemi (c : Char) : Bool := c != ';'

/-- `("BAN001", r"\bDROP\s+TABLE\b", "critical", ..., "ACCESS EXCLUSIVE", 10)` -/
def ruleBAN001 : Rule :=
  { id := "BAN001"
    pat := cat [.wb, .lit (strL "DROP"), .plus isPySpace, .lit (strL "TABLE"), .wb]
    severity := "critical"
    message := "DROP TABLE permanently deletes data and all indexes"
    lock := "ACCESS EXCLUSIVE", base := some 10 }

/-- `("BAN002", r"\bALTER\s+TABLE\s+\S+\s+DROP\s+COLUMN\b", "high", ..., "ACCESS EXCLUSIVE", 50)` -/
def ruleBAN002 : Rule :=
  { id := "BAN002"
    pat := cat [.wb, .lit (strL "ALTER"), .plus isPySpace, .lit (strL "TABLE"),
      .plus isPySpace, .plus isNonSpace, .plus isPySpace,
      .lit (strL "DROP"), .plus isPySpace, .lit (strL "COLUMN"), .wb]
    severity := "high"
    message := "DROP COLUMN is irreversible and may break running queries"
    lock := "ACCESS EXCLUSIVE", base := some 50 }

/-- `("BAN003", r"\bALTER\s+TABLE\s+\S+\s+RENAME\b", "medium", ..., "ACCESS EXCLUSIVE", 5)` -/
def ruleBAN003 : Rule :=
  { id := "BAN003"
    pat := cat [.wb, .lit (strL "ALTER"), .plus isPySpace, .lit (strL "TABLE"),
      .plus isPySpace, .plus isNonSpace, .plus isPySpace, .lit (strL "RENAME"), .wb]
    severity := "medium"
    message := "Renaming table/column will break application queries"
    lock := "ACCESS EXCLUSIVE", base := some 5 }

/-- `("LCK001", r"\bADD\s+(?:COLUMN\s+)?\S+\s+\S+[^;]*\bNOT\s+NULL\b(?![^;]*\bDEFAULT\b)",
"critical", ..., "ACCESS EXCLUSIVE", None)` -/
def ruleLCK001 : Rule :=
  { id := "LCK001"
    pat := cat [.wb, .lit (strL "ADD"), .plus isPySpace,
      .opt (cat [.lit (strL "COLUMN"), .plus isPySpace]),
      .plus isNonSpace, .plus isPySpace, .plus isNonSpace, .star notSemi,
      .wb, .lit (strL "NOT"), .plus isPySpace, .lit (strL "NULL"), .wb,
      .nla (cat [.star notSemi, .wb, .lit (strL "DEFAULT"), .wb])]
    severity := "critical"
    message := "Adding NOT NULL column without DEFAULT rewrites entire table under lock"
    lock := "ACCESS EXCLUSIVE", base := none }

/-- `("LCK002", r"\bCREATE\s+(?:UNIQUE\s+)?INDEX\s+(?!CONCURRENTLY\b)", "high", ..., "SHARE", None)` -/
def ruleLCK002 : Rule :=
  { id := "LCK002"
    pat := cat [.wb, .lit (strL "CREATE"), .plus isPySpace,
      .opt (cat [.lit (strL "UNIQUE"), .plus isPySpace]),
      .lit (strL "INDEX"), .plus isPySpace,
      .nla (cat [.lit (strL "CONCURRENTLY"), .wb])]
    severity := "high"
    message := "CREATE INDEX without CONCURRENTLY blocks all writes"
    lock := "SHARE", base := none }

/-- `("LCK003", r"\bADD\s+(?:CONSTRAINT\s+\S+\s+)?FOREIGN\s+KEY\b(?![^;]*\bNOT\s+VALID\b)",
"high", ..., "SHARE ROW EXCLUSIVE", None)` -/
def ruleLCK003 : Rule :=
  { id := "LCK003"
    pat := cat [.wb, .lit (strL "ADD"), .plus isPySpace,
      .opt (cat [.lit (strL "CONSTRAINT"), .plus isPySpace, .plus isNonSpace, .plus isPySpace]),
      .lit (strL "FOREIGN"), .plus isPySpace, .lit (strL "KEY"), .wb,
      .nla (cat [.star notSemi, .wb, .lit (strL "NOT"), .plus isPySpace, .lit (strL "VALID"), .wb])]
    severity := "high"
    message := "Adding FK without NOT VALID scans entire table under lock"
    lock := "SHARE ROW EXCLUSIVE", base := none }

/-- `("LCK004", r"\bALTER\s+TABLE\s+\S+\s+ALTER\s+COLUMN\s+\S+\s+(?:SET\s+DATA\s+)?TYPE\b",
"critical", ..., "ACCESS EXCLUSIVE", None)` -/
def ruleLCK004 : Rule :=
  { id := "LCK004"
    pat := cat [.wb, .lit (strL "ALTER"), .plus isPySpace, .lit (strL "TABLE"),
      .plus isPySpace, .plus isNonSpace, .plus isPySpace,
      .lit (strL "ALTER"), .plus isPySpace, .lit (strL "COLUMN"),
      .plus isPySpace, .plus isNonSpace, .plus isPySpace,
      .opt (cat [.lit (strL "SET"), .plus isPySpace, .lit (strL "DATA"), .plus isPySpace]),
      .lit (strL "TYPE"), .wb]
    severity := "critical"
    message := "Changing column type rewrites the entire table under ACCESS EXCLUSIVE lock"
    lock := "ACCESS EXCLUSIVE", base := none }

/-- `("LCK005", r"\bALTER\s+TABLE\s+\S+\s+ALTER\s+COLUMN\s+\S+\s+SET\s+NOT\s+NULL\b",
"high", ..., "ACCESS EXCLUSIVE", None)` -/
def ruleLCK005 : Rule :=
  { id := "LCK005"
    pat := cat [.wb, .lit (strL "ALTER"), .plus isPySpace, .lit (strL "TABLE"),
      .plus isPySpace, .plus isNonSpace, .plus isPySpace,
      .lit (strL "ALTER"), .plus isPySpace, .lit (strL "COLUMN"),
      .plus isPySpace, .plus isNonSpace, .plus isPySpace,
      .lit (strL "SET"), .plus isPySpace, .lit (strL "NOT"), .plus isPySpace,
      .lit (strL "NULL"), .wb]
    severity := "high"
    message := "SET NOT NULL scans full table; use CHECK constraint + NOT VALID instead"
    lock := "ACCESS EXCLUSIVE", base := none }

/-- The rule catalog, in declaration order. -/
def RULES : List Rule :=
  [ruleBAN001, ruleBAN002, ruleBAN003, ruleLCK001, ruleLCK002, ruleLCK003, ruleLCK004, ruleLCK005]

/-! ## Findings, lock estimation and risk score -/

/-- The `Finding` dataclass.  `sql` keeps the (truncated) normalized
statement as a character list. -/
structure Finding where
  rule_id : String
  severity : String
  message : String
  line : Nat
  sql : List Char
  lock_type : String
  lock_ms : Option Int
deriving DecidableEq, Repr

/-- Python truthiness-based `b or d` on an optional integer: `None` and `0`
are falsy and give `d`, any other value gives itself. -/
def pyOrInt (b : Option Int) (d : Int) : Int :=
  match b with
  | none => d
  | some v => if v = 0 then d else v

/-- `estimate_lock_ms` from `rules.py`.  Python `//` is floor division,
`Int.fdiv` here. -/
def estimate_lock_ms (base_ms : Option Int) (rows : Int) : Option Int :=
  if rows ≤ 0 then base_ms
  else some (max (pyOrInt base_ms 1) (Int.fdiv rows 10000 + pyOrInt base_ms 0))

/-- The dict `SEVERITY_WEIGHT = {"critical": 4, "high": 3, "medium": 2, "low": 1}`. -/
def SEVERITY_WEIGHT (s : String) : Option Nat :=
  if s = "critical" then some 4
  else if s = "high" then some 3
  else if s = "medium" then some 2
  else if s = "low" then some 1
  else none

/-- `risk_score` from `rules.py`:
`min(100, sum(SEVERITY_WEIGHT.get(f.severity, 1) * 25 for f in findings))`. -/
def risk_score (findings : List Finding) : Nat :=
  min 100 ((findings.map fun f => (SEVERITY_WEIGHT f.severity).getD 1 * 25).sum)

/-! ## The statement segmenter (`_split_statements`) -/

/-- Python `str.lstrip()` (whitespace variant). -/
def pyLstrip (l : List Char) : List Char := l.dropWhile isPySpace

/-- Python `str.strip()` (whitespace variant). -/
def pyStrip (l : List Char) : List Char :=
  ((l.dropWhile isPySpace).reverse.dropWhile isPySpace).reverse

/-- Helper for Python `str.split()` with no separator: accumulate the
current word (reversed) and emit words at whitespace runs. -/
def splitWsAux : List Char → List Char → List (List Char)
  | cur, [] => if cur.isEmpty then [] else [cur.reverse]
  | cur, c :: cs =>
    if isPySpace c then
      if cur.isEmpty then splitWsAux [] cs else cur.reverse :: splitWsAux [] cs
    else splitWsAux (c :: cur) cs

/-- Python `str.split()` with no separator: the whitespace-separated words. -/
def pySplitWs (l : List Char) : List (List Char) := splitWsAux [] l

/-- `" ".join(words)`. -/
def joinSp : List (List Char) → List Char
  | [] => []
  | w :: ws =>
    match ws with
    | [] => w
    | _ :: _ => w ++ ' ' :: joinSp ws

/-- `" ".join(text.split())`: collapse internal whitespace runs to single
spaces, dropping leading/trailing whitespace. -/
def normalize (l : List Char) : List Char := joinSp (pySplitWs l)

/-- Python `sql.split(";")`: split at every semicolon, keeping empty parts;
the empty string yields one empty part. -/
def splitOnSemi : List Char → List (List Char)
  | [] => [[]]
  | c :: cs =>
    if c = ';' then [] :: splitOnSemi cs
    else
      match splitOnSemi cs with
      | [] => [[c]]
      | p :: ps => (c :: p) :: ps

/-- `text.lstrip().startswith("--")` for already-stripped `text`. -/
def isCommentStart : List Char → Bool
  | '-' :: '-' :: _ => true
  | _ => false

/-- The loop body of `_split_statements`.  Python tracks the integer
`offset` of the current part and computes
`line = sql[:offset].count("\n") + 1`; here `pre` is maintained as exactly
that prefix `sql[:offset]` (the parts produced by `splitOnSemi`, re-joined
with `";"`, reconstruct the input — see `joinSemi_splitOnSemi` below), so
`line = pre.count '\n' + 1`. -/
def splitStmtsAux : List Char → List (List Char) → List (List Char × Nat)
  | _, [] => []
  | pre, part :: ps =>
    let text := pyStrip part
    let rest := splitStmtsAux (pre ++ part ++ [';']) ps
    if !text.isEmpty && !isCommentStart (pyLstrip text) then
      (normalize text, pre.count '\n' + 1) :: rest
    else rest

/-- `_split_statements` from `rules.py`: the list of
`(normalized statement, 1-based line number)` pairs. -/
def split_statements (sql : List Char) : List (List Char × Nat) :=
  splitStmtsAux [] (splitOnSemi sql)

/-! ## `analyze` -/

/-- The `Finding(...)` constructed in `analyze` for a matched rule. -/
def mkFinding (r : Rule) (stmt : List Char) (line : Nat) (rows : Int) : Finding :=
  { rule_id := r.id, severity := r.severity, message := r.message, line := line,
    sql := stmt.take 120, lock_type := r.lock,
    lock_ms := estimate_lock_ms r.base rows }

/-- The findings the inner rule loop of `analyze` appends for one
statement: every rule of the catalog is tried, in catalog order. -/
def findingsFor (stmt : List Char) (line : Nat) (rows : Int) : List Finding :=
  RULES.filterMap fun r =>
    if search r.pat stmt then some (mkFinding r stmt line rows) else none

/-- `analyze` from `rules.py`. -/
def analyze (sql : List Char) (rows : Int) : List Finding :=
  (split_statements sql).flatMap fun sl => findingsFor sl.1 sl.2 rows

/-! ## Spec-side definitions

The following definitions are written from the specification text (not from
the code); they are compared against the code-side definitions above. -/

/-- Does `hay` start with `needle`, comparing characters case-insensitively? -/
def startsWithCI : List Char → List Char → Bool
  | [], _ => true
  | _ :: _, [] => false
  | n :: ns, h :: hs => lowc n == lowc h && startsWithCI ns hs

/-- Does `hay` contain `needle` as a case-insensitive substring?  This is
the literal reading of "contains the substring `DROP TABLE` (compared
case-insensitively)" in the claim. -/
def containsCI (needle : List Char) : List Char → Bool
  | [] => startsWithCI needle []
  | h :: hs => startsWithCI needle (h :: hs) || containsCI needle hs

/-- Modelled from the spec sentence for `EstimateLockMs`: "If
`rowCountHint <= 0`: return `baseMs` unchanged (possibly absent).
Otherwise: return `max(baseMs or 1, rowCountHint / 10000 + (baseMs or 0))`,
using integer division" — with the claim's "truncating integer division",
hence `Int.tdiv`. -/
def specEstimateLockMs (baseMs : Option Int) (rowCountHint : Int) : Option Int :=
  if rowCountHint ≤ 0 then baseMs
  else some (max (pyOrInt baseMs 1) (Int.tdiv rowCountHint 10000 + pyOrInt baseMs 0))

/-- The per-severity weight table exactly as listed in the claim
(`low=1, medium=2, high=3, critical=4`); other strings are outside the
claim's table. -/
def claimWeight (s : String) : Nat :=
  if s = "critical" then 4
  else if s = "high" then 3
  else if s = "medium" then 2
  else if s = "low" then 1
  else 0

/-- `analyze` instrumented with the statement index (position in the
segmented script) and the rule index (position in the rule catalog) of
every emitted finding. -/
def analyzeIdx (sql : List Char) (rows : Int) : List (Nat × Nat × Finding) :=
  (split_statements sql).enum.flatMap fun isl =>
    (RULES.enum.filter fun jr => search jr.2.pat isl.2.1).map
      fun jr => (isl.1, jr.1, mkFinding jr.2 isl.2.1 isl.2.2 rows)

/-- Re-join split parts with `";"` (inverse of `splitOnSemi`). -/
def joinSemi : List (List Char) → List Char
  | [] => []
  | p :: ps =>
    match ps with
    | [] => p
    | _ :: _ => p ++ ';' :: joinSemi ps

/-- Join parts, terminating every part with `";"`: the text consumed once a
part and its semicolon have been passed by the segmenter loop. -/
def joinTerm (ps : List (List Char)) : List Char :=
  ps.foldr (fun p acc => p ++ ';' :: acc) []

/-! ## Helper lemmas -/

/-- Python floor division `//` agrees with truncating division on a
positive dividend and the positive divisor `10000`. -/
theorem fdiv_eq_tdiv_of_pos (r : Int) (h : 0 < r) : Int.fdiv r 10000 = Int.tdiv r 10000 :=
  Int.fdiv_eq_tdiv (by omega) (by omega)

/-! ## Claim C3: the lock-time estimation formula -/

/-- C3: for every optional `baseMs` and integer `rowCountHint`,
`estimate_lock_ms` returns `baseMs` unchanged when `rowCountHint ≤ 0`, and
otherwise `max(baseMs or 1, rowCountHint div 10000 + (baseMs or 0))` with
truncating integer division (`specEstimateLockMs`, written from the spec);
in particular the four quoted values hold. -/
theorem estimate_lock_ms_spec :
    (∀ (b : Option Int) (r : Int), estimate_lock_ms b r = specEstimateLockMs b r) ∧
    estimate_lock_ms (some 10) 1000000 = some 110 ∧
    estimate_lock_ms none 1000000 = some 100 ∧
    estimate_lock_ms (some 50) 0 = some 50 ∧
    estimate_lock_ms none 0 = none := by
  refine ⟨fun b r => ?_, by decide, by decide, by decide, by decide⟩
  unfold estimate_lock_ms specEstimateLockMs
  by_cases h : r ≤ 0
  · simp [h]
  · simp only [h, if_false]
    rw [fdiv_eq_tdiv_of_pos r (by omega)]

/-! ## Claim C10: a present baseline of exactly 0 ms -/

/-- C10: for `rowCountHint > 0`, a supplied baseline of exactly `0` behaves
like an absent baseline — the 1 ms floor applies and the result is
`max 1 (rowCountHint // 10000)` — while `estimate_lock_ms (some 0) 0`
returns the zero baseline unchanged. -/
theorem estimate_lock_ms_zero_base :
    (∀ r : Int, 0 < r →
      estimate_lock_ms (some 0) r = some (max 1 (Int.fdiv r 10000)) ∧
      estimate_lock_ms (some 0) r = estimate_lock_ms none r) ∧
    estimate_lock_ms (some 0) 0 = some 0 := by
  refine ⟨fun r h => ⟨?_, ?_⟩, by decide⟩
  · unfold estimate_lock_ms
    rw [if_neg (by omega : ¬ r ≤ 0)]
    simp [pyOrInt]
  · unfold estimate_lock_ms
    rw [if_neg (by omega : ¬ r ≤ 0), if_neg (by omega : ¬ r ≤ 0)]
    simp [pyOrInt]

/-- Witness for C10 at `rowCountHint = 5000`: the estimate is
`max 1 0 = 1` even though a zero baseline was supplied. -/
theorem estimate_lock_ms_zero_base_witness :
    estimate_lock_ms (some 0) 5000 = some (max 1 (Int.fdiv 5000 10000)) ∧
    estimate_lock_ms (some 0) 5000 = estimate_lock_ms none 5000 :=
  estimate_lock_ms_zero_base.1 5000 (by decide)

/-! ## Claim C4: the risk-score formula -/

/-- C4: `risk_score` is the sum of per-severity weights
(`low=1, medium=2, high=3, critical=4`) times 25, clamped at 100; it is
always at most 100 (and a natural number, hence at least 0), and the empty
sequence scores exactly 0. -/
theorem risk_score_formula :
    risk_score [] = 0 ∧
    (∀ fs : List Finding, risk_score fs ≤ 100) ∧
    (∀ fs : List Finding,
      (∀ f ∈ fs, f.severity = "low" ∨ f.severity = "medium" ∨
        f.severity = "high" ∨ f.severity = "critical") →
      risk_score fs = min 100 ((fs.map fun f => claimWeight f.severity * 25).sum)) := by
  refine ⟨by decide, fun fs => min_le_left _ _, fun fs h => ?_⟩
  unfold risk_score
  have hmap : (fs.map fun f => (SEVERITY_WEIGHT f.severity).getD 1 * 25) =
      fs.map fun f => claimWeight f.severity * 25 := by
    apply List.map_congr_left
    intro f hf
    rcases h f hf with h4 | h4 | h4 | h4 <;> simp [h4, SEVERITY_WEIGHT, claimWeight]
  rw [hmap]

/-- Witness for C4 on the findings of a concrete two-statement script
(one critical, one high finding). -/
theorem risk_score_formula_witness :
    risk_score (analyze (strL "DROP TABLE users; ALTER TABLE users DROP COLUMN age;") 0) =
      min 100 (((analyze (strL "DROP TABLE users; ALTER TABLE users DROP COLUMN age;") 0).map
        fun f => claimWeight f.severity * 25).sum) :=
  risk_score_formula.2.2 _ (by decide)

/-! ## Claim C5: order-independence and monotonicity of the risk score -/

/-- C5: `risk_score` gives the same value on any permutation of the
findings, and appending one finding never decreases the score nor pushes it
above 100. -/
theorem risk_score_perm_monotone :
    (∀ fs gs : List Finding, fs.Perm gs → risk_score fs = risk_score gs) ∧
    (∀ (fs : List Finding) (f : Finding),
      risk_score fs ≤ risk_score (fs ++ [f]) ∧ risk_score (fs ++ [f]) ≤ 100) := by
  constructor
  · intro fs gs h
    unfold risk_score
    rw [(h.map _).sum_eq]
  · intro fs f
    refine ⟨?_, min_le_left _ _⟩
    unfold risk_score
    rw [List.map_append, List.sum_append]
    exact min_le_min (le_refl 100) (Nat.le_add_right _ _)

/-- Witness for C5: swapping a critical and a high finding leaves the score
unchanged. -/
theorem risk_score_perm_monotone_witness :
    risk_score
        [mkFinding ruleBAN001 (strL "DROP TABLE a") 1 0,
         mkFinding ruleBAN002 (strL "ALTER TABLE t DROP COLUMN c") 1 0] =
      risk_score
        [mkFinding ruleBAN002 (strL "ALTER TABLE t DROP COLUMN c") 1 0,
         mkFinding ruleBAN001 (strL "DROP TABLE a") 1 0] :=
  risk_score_perm_monotone.1 _ _
    (List.Perm.swap (mkFinding ruleBAN002 (strL "ALTER TABLE t DROP COLUMN c") 1 0)
      (mkFinding ruleBAN001 (strL "DROP TABLE a") 1 0) [])

/-! ## Claim C8: totality of `analyze` -/

/-- C8: `analyze` is a total function of the SQL text and the row-count
hint — the embedding returns a plain findings list for every input and
there is no failing path to model.  The empty script yields no findings,
and arbitrary non-SQL text with unmatched quoting and an embedded comment
marker yields a normal (here empty) findings list, for every integer
row-count hint. -/
theorem analyze_never_fails :
    (∀ rows : Int, analyze [] rows = []) ∧
    (∀ rows : Int, analyze (strL "random text \" unmatched (( -- not sql") rows = []) :=
  ⟨fun _ => rfl, fun _ => rfl⟩

/-! ## Segmenter lemmas -/

theorem joinSemi_cons₂ (p q : List Char) (ps : List (List Char)) :
    joinSemi (p :: q :: ps) = p ++ ';' :: joinSemi (q :: ps) := rfl

theorem joinTerm_cons (p : List Char) (ps : List (List Char)) :
    joinTerm (p :: ps) = p ++ ';' :: joinTerm ps := rfl

theorem splitOnSemi_semi_cons (cs : List Char) :
    splitOnSemi (';' :: cs) = [] :: splitOnSemi cs := rfl

theorem splitOnSemi_cons_of_ne (c : Char) (cs : List Char) (p : List Char)
    (ps : List (List Char)) (hc : ¬ c = ';') (hsp : splitOnSemi cs = p :: ps) :
    splitOnSemi (c :: cs) = (c :: p) :: ps := by
  simp [splitOnSemi, hc, hsp]

theorem splitOnSemi_ne_nil (l : List Char) : splitOnSemi l ≠ [] := by
  cases l with
  | nil => simp [splitOnSemi]
  | cons c cs =>
    simp only [splitOnSemi]
    split
    · simp
    · split <;> simp

/-- The parts produced by `splitOnSemi`, re-joined with `";"`, reconstruct
the input; this is what makes the `pre` accumulator of `splitStmtsAux`
equal to the Python `sql[:offset]`. -/
theorem joinSemi_splitOnSemi (l : List Char) : joinSemi (splitOnSemi l) = l := by
  induction l with
  | nil => rfl
  | cons c cs ih =>
    rcases hsp : splitOnSemi cs with _ | ⟨p, ps⟩
    · exact absurd hsp (splitOnSemi_ne_nil cs)
    · rw [hsp] at ih
      by_cases hc : c = ';'
      · subst hc
        rw [splitOnSemi_semi_cons, hsp, joinSemi_cons₂, List.nil_append, ih]
      · rw [splitOnSemi_cons_of_ne c cs p ps hc hsp]
        cases ps with
        | nil => simp only [joinSemi] at ih ⊢; rw [ih]
        | cons q ps' =>
          rw [joinSemi_cons₂] at ih
          rw [joinSemi_cons₂, List.cons_append, ih]

theorem splitOnSemi_append (a b : List Char) :
    splitOnSemi (a ++ ';' :: b) = splitOnSemi a ++ splitOnSemi b := by
  induction a with
  | nil => rw [List.nil_append, splitOnSemi_semi_cons]; rfl
  | cons c a' ih =>
    by_cases hc : c = ';'
    · subst hc
      rw [List.cons_append, splitOnSemi_semi_cons, ih, splitOnSemi_semi_cons]
      rfl
    · rcases hsp : splitOnSemi a' with _ | ⟨p, ps⟩
      · exact absurd hsp (splitOnSemi_ne_nil a')
      · rw [List.cons_append,
          splitOnSemi_cons_of_ne c (a' ++ ';' :: b) p (ps ++ splitOnSemi b) hc
            (by rw [ih, hsp, List.cons_append]),
          splitOnSemi_cons_of_ne c a' p ps hc hsp]
        rfl

theorem splitOnSemi_no_semi (b : List Char) (h : ';' ∉ b) : splitOnSemi b = [b] := by
  induction b with
  | nil => rfl
  | cons c cs ih =>
    have hc : ¬ c = ';' := by
      intro e
      exact h (by rw [e]; exact List.mem_cons_self ';' cs)
    have hcs : ';' ∉ cs := fun m => h (List.mem_cons_of_mem _ m)
    rw [splitOnSemi_cons_of_ne c cs cs [] hc (ih hcs)]

theorem joinTerm_splitOnSemi (l : List Char) : joinTerm (splitOnSemi l) = l ++ [';'] := by
  induction l with
  | nil => rfl
  | cons c cs ih =>
    rcases hsp : splitOnSemi cs with _ | ⟨p, ps⟩
    · exact absurd hsp (splitOnSemi_ne_nil cs)
    · rw [hsp] at ih
      by_cases hc : c = ';'
      · subst hc
        rw [splitOnSemi_semi_cons, hsp, joinTerm_cons, List.nil_append, ih]
        rfl
      · rw [splitOnSemi_cons_of_ne c cs p ps hc hsp, joinTerm_cons]
        rw [joinTerm_cons] at ih
        simp [ih]

/-- No split part contains a semicolon. -/
theorem not_semi_mem_splitOnSemi (l : List Char) :
    ∀ p ∈ splitOnSemi l, ';' ∉ p := by
  induction l with
  | nil =>
    intro p hp
    simp only [splitOnSemi, List.mem_singleton] at hp
    rw [hp]
    simp
  | cons c cs ih =>
    intro p hp
    by_cases hc : c = ';'
    · subst hc
      rw [splitOnSemi_semi_cons] at hp
      rcases List.mem_cons.mp hp with rfl | hp'
      · simp
      · exact ih p hp'
    · rcases hsp : splitOnSemi cs with _ | ⟨q, qs⟩
      · exact absurd hsp (splitOnSemi_ne_nil cs)
      · rw [splitOnSemi_cons_of_ne c cs q qs hc hsp] at hp
        rcases List.mem_cons.mp hp with rfl | hp'
        · intro hm
          rcases List.mem_cons.mp hm with he | hm'
          · exact hc he.symm
          · exact ih q (hsp ▸ List.mem_cons_self q qs) hm'
        · exact ih p (hsp ▸ List.mem_cons_of_mem q hp')

/-- Every `(statement, line)` pair yielded by the segmenter loop arises
from one split part: the processed text decomposes as
`mid ++ part ++ suf` where `mid` is empty or ends with `;` (so `part`
starts right after the previous `;`), `part` is semicolon-free and `suf`
is empty or starts with `;` (so `part` is the whole segment up to the next
`;` or the end); the line is computed from the newlines in `pre ++ mid`
only — i.e. up to the part's start offset — and the statement is the
normalized stripped part. -/
theorem mem_splitStmtsAux (ps : List (List Char)) :
    ∀ (pre stmt : List Char) (line : Nat),
      (∀ p ∈ ps, ';' ∉ p) →
      (stmt, line) ∈ splitStmtsAux pre ps →
      ∃ mid part suf,
        mid ++ part ++ suf = joinSemi ps ∧
        (mid = [] ∨ mid.getLast? = some ';') ∧
        ';' ∉ part ∧
        (suf = [] ∨ suf.head? = some ';') ∧
        line = (pre ++ mid).count '\n' + 1 ∧
        stmt = normalize (pyStrip part) := by
  induction ps with
  | nil => intro pre stmt line _ h; simp [splitStmtsAux] at h
  | cons part0 ps' ih =>
    intro pre stmt line hps h
    have hp0 : ';' ∉ part0 := hps part0 (List.mem_cons_self part0 ps')
    have hps' : ∀ p ∈ ps', ';' ∉ p := fun p hp => hps p (List.mem_cons_of_mem part0 hp)
    have hrest : (stmt, line) ∈ splitStmtsAux (pre ++ part0 ++ [';']) ps' →
        ∃ mid part suf,
          mid ++ part ++ suf = joinSemi (part0 :: ps') ∧
          (mid = [] ∨ mid.getLast? = some ';') ∧
          ';' ∉ part ∧
          (suf = [] ∨ suf.head? = some ';') ∧
          line = (pre ++ mid).count '\n' + 1 ∧
          stmt = normalize (pyStrip part) := by
      intro hr
      cases ps' with
      | nil => simp [splitStmtsAux] at hr
      | cons q qs =>
        obtain ⟨mid2, part, suf, hj, hmid2, hpart, hsuf, hl, hs⟩ :=
          ih (pre ++ part0 ++ [';']) stmt line hps' hr
        refine ⟨part0 ++ ';' :: mid2, part, suf, ?_, ?_, hpart, hsuf, ?_, hs⟩
        · rw [joinSemi_cons₂, ← hj]
          simp
        · right
          have h2 : (';' :: mid2).getLast? = some ';' := by
            rcases hmid2 with rfl | hlast
            · rfl
            · cases mid2 with
              | nil => simp at hlast
              | cons m ms => rw [List.getLast?_cons_cons]; exact hlast
          rw [List.getLast?_append, h2]
          rfl
        · rw [hl]
          have he : pre ++ part0 ++ [';'] ++ mid2 = pre ++ (part0 ++ ';' :: mid2) := by simp
          rw [he]
    rw [splitStmtsAux] at h
    split at h
    · rcases List.mem_cons.mp h with he | hr
      · injection he with h1 h2
        subst h1; subst h2
        cases ps' with
        | nil =>
          exact ⟨[], part0, [], by simp [joinSemi], Or.inl rfl, hp0, Or.inl rfl, by simp, rfl⟩
        | cons q qs =>
          exact ⟨[], part0, ';' :: joinSemi (q :: qs), by rw [joinSemi_cons₂]; simp,
            Or.inl rfl, hp0, Or.inr rfl, by simp, rfl⟩
      · exact hrest hr
    · exact hrest h

/-- The segmenter output for a kept final part `t`: it is the last yielded
segment, and its line counts the newlines of everything before `t`
(the earlier parts, each with its terminating semicolon). -/
theorem splitStmtsAux_append_getLast (parts : List (List Char)) :
    ∀ (pre t : List Char),
      (!(pyStrip t).isEmpty && !isCommentStart (pyLstrip (pyStrip t))) = true →
      (splitStmtsAux pre (parts ++ [t])).getLast? =
        some (normalize (pyStrip t), (pre ++ joinTerm parts).count '\n' + 1) := by
  induction parts with
  | nil =>
    intro pre t hk
    simp only [List.nil_append, splitStmtsAux, hk, if_pos]
    simp [joinTerm]
  | cons p0 parts' ih =>
    intro pre t hk
    have hrest : (splitStmtsAux (pre ++ p0 ++ [';']) (parts' ++ [t])).getLast? =
        some (normalize (pyStrip t), (pre ++ joinTerm (p0 :: parts')).count '\n' + 1) := by
      rw [ih (pre ++ p0 ++ [';']) t hk, joinTerm_cons]
      have he : pre ++ p0 ++ [';'] ++ joinTerm parts' = pre ++ (p0 ++ ';' :: joinTerm parts') := by
        simp
      rw [he]
    rw [List.cons_append, splitStmtsAux]
    split
    · rcases hr : splitStmtsAux (pre ++ p0 ++ [';']) (parts' ++ [t]) with _ | ⟨a, as⟩
      · rw [hr] at hrest
        simp at hrest
      · rw [hr] at hrest
        rw [List.getLast?_cons_cons]
        exact hrest
    · exact hrest

/-! ## Claim C1: line attribution -/

/-- Counterexample to C1 as stated: in
`"DROP TABLE a;\n\nDROP TABLE b"` the second statement is preceded by two
newlines after the previous `;`, so it begins on line 3 of the source, yet
its finding reports `line = 1`: the segmenter counts newlines only up to
the offset just past the previous `;`, not up to the statement's first
character. -/
theorem analyze_line_attribution_cex :
    (analyze (strL "DROP TABLE a;\n\nDROP TABLE b") 0).map (fun f => (f.line, f.sql)) =
      [(1, strL "DROP TABLE a"), (1, strL "DROP TABLE b")] ∧
    strL "DROP TABLE a;\n\nDROP TABLE b" = strL "DROP TABLE a;\n\n" ++ strL "DROP TABLE b" ∧
    (strL "DROP TABLE a;\n\n").count '\n' + 1 = 3 := by
  refine ⟨by decide, by decide, by decide⟩

/-- C1 as amended: every finding's `line` equals 1 plus the number of
newlines before its segment's start offset, the position immediately after
the previous `;` (or position 0 for the first segment).  The decomposition
`sql = pre ++ part ++ suf` is pinned to that offset: `pre` is empty or
ends with `;`, `part` — the finding's whole segment, whose normalization
is the finding's statement — contains no `;`, and `suf` is empty or starts
with `;`.  Newlines inside `part` (in particular newlines between the
previous `;` and the statement's first non-whitespace character, and
newlines a multi-line statement spans) are not counted. -/
theorem analyze_line_attribution :
    ∀ (sql : List Char) (rows : Int) (f : Finding), f ∈ analyze sql rows →
    ∃ pre part suf,
      sql = pre ++ part ++ suf ∧
      (pre = [] ∨ pre.getLast? = some ';') ∧
      ';' ∉ part ∧
      (suf = [] ∨ suf.head? = some ';') ∧
      f.line = pre.count '\n' + 1 ∧
      f.sql = (normalize (pyStrip part)).take 120 := by
  intro sql rows f hf
  rw [analyze] at hf
  rcases List.mem_flatMap.mp hf with ⟨sl, hsl, hff⟩
  obtain ⟨stmt, line⟩ := sl
  rcases List.mem_filterMap.mp hff with ⟨r, _, hsome⟩
  by_cases hs : search r.pat stmt = true
  · rw [if_pos hs] at hsome
    injection hsome with hfe
    rw [split_statements] at hsl
    obtain ⟨mid, part, suf, hj, hmid, hpart, hsuf, hl, hst⟩ :=
      mem_splitStmtsAux (splitOnSemi sql) [] stmt line (not_semi_mem_splitOnSemi sql) hsl
    rw [joinSemi_splitOnSemi] at hj
    rw [List.nil_append] at hl
    refine ⟨mid, part, suf, hj.symm, hmid, hpart, hsuf, ?_, ?_⟩
    · rw [← hfe, mkFinding]
      exact hl
    · rw [← hfe, mkFinding]
      rw [hst]
  · rw [if_neg hs] at hsome
    exact absurd hsome (by simp)

/-- Witness for the amended C1 on a concrete two-statement script: the
second finding's segment decomposition is forced to
`pre = "DROP TABLE a;"`, `part = "\n\nDROP TABLE b"`, `suf = ""`, so its
line is `pre.count '\n' + 1 = 1`. -/
theorem analyze_line_attribution_witness :
    ∃ pre part suf,
      strL "DROP TABLE a;\n\nDROP TABLE b" = pre ++ part ++ suf ∧
      (pre = [] ∨ pre.getLast? = some ';') ∧
      ';' ∉ part ∧
      (suf = [] ∨ suf.head? = some ';') ∧
      (mkFinding ruleBAN001 (strL "DROP TABLE b") 1 0).line = pre.count '\n' + 1 ∧
      (mkFinding ruleBAN001 (strL "DROP TABLE b") 1 0).sql =
        (normalize (pyStrip part)).take 120 :=
  analyze_line_attribution (strL "DROP TABLE a;\n\nDROP TABLE b") 0
    (mkFinding ruleBAN001 (strL "DROP TABLE b") 1 0) (by decide)

/-! ## Claim C9: the trailing statement without `;` -/

/-- C9: text after the final `;` (or the whole script when it has no `;`)
that is non-empty after stripping and does not begin with `--` is yielded
as the final segment, with the line computed from the newlines before the
final `;`; `analyze` therefore runs the whole rule catalog on that trailing
statement (its findings form the tail of the returned list). -/
theorem trailing_statement_included :
    (∀ (pre tail : List Char) (rows : Int), ';' ∉ tail →
      (!(pyStrip tail).isEmpty && !isCommentStart (pyLstrip (pyStrip tail))) = true →
      (split_statements (pre ++ ';' :: tail)).getLast? =
        some (normalize (pyStrip tail), pre.count '\n' + 1) ∧
      ∃ l, analyze (pre ++ ';' :: tail) rows =
        l ++ findingsFor (normalize (pyStrip tail)) (pre.count '\n' + 1) rows) ∧
    (∀ (sql : List Char) (rows : Int), ';' ∉ sql →
      (!(pyStrip sql).isEmpty && !isCommentStart (pyLstrip (pyStrip sql))) = true →
      split_statements sql = [(normalize (pyStrip sql), 1)] ∧
      analyze sql rows = findingsFor (normalize (pyStrip sql)) 1 rows) := by
  constructor
  · intro pre tail rows hsemi hk
    have hsplit : split_statements (pre ++ ';' :: tail) =
        splitStmtsAux [] (splitOnSemi pre ++ [tail]) := by
      rw [split_statements, splitOnSemi_append, splitOnSemi_no_semi tail hsemi]
    have hlast : (split_statements (pre ++ ';' :: tail)).getLast? =
        some (normalize (pyStrip tail), pre.count '\n' + 1) := by
      rw [hsplit, splitStmtsAux_append_getLast (splitOnSemi pre) [] tail hk]
      rw [List.nil_append, joinTerm_splitOnSemi]
      rw [List.count_append]
      simp
    refine ⟨hlast, ?_⟩
    obtain ⟨init, hinit⟩ := List.getLast?_eq_some_iff.mp hlast
    refine ⟨(init.flatMap fun sl => findingsFor sl.1 sl.2 rows), ?_⟩
    rw [analyze, hinit, List.flatMap_append]
    simp
  · intro sql rows hsemi hk
    have hsplit : split_statements sql = [(normalize (pyStrip sql), 1)] := by
      rw [split_statements, splitOnSemi_no_semi sql hsemi, splitStmtsAux, hk]
      simp [splitStmtsAux]
    refine ⟨hsplit, ?_⟩
    rw [analyze, hsplit]
    simp

/-- Witness for C9: a trailing `CREATE INDEX` statement with no final `;`
is analyzed, and a whole script with no `;` at all forms one statement. -/
theorem trailing_statement_included_witness :
    ((split_statements (strL "DROP TABLE a" ++ ';' :: strL "\nCREATE INDEX i ON t(c)")).getLast? =
      some (normalize (pyStrip (strL "\nCREATE INDEX i ON t(c)")),
        (strL "DROP TABLE a").count '\n' + 1) ∧
     ∃ l, analyze (strL "DROP TABLE a" ++ ';' :: strL "\nCREATE INDEX i ON t(c)") 0 =
        l ++ findingsFor (normalize (pyStrip (strL "\nCREATE INDEX i ON t(c)")))
          ((strL "DROP TABLE a").count '\n' + 1) 0) ∧
    (split_statements (strL "DROP TABLE x") = [(normalize (pyStrip (strL "DROP TABLE x")), 1)] ∧
     analyze (strL "DROP TABLE x") 0 = findingsFor (normalize (pyStrip (strL "DROP TABLE x"))) 1 0) :=
  ⟨trailing_statement_included.1 (strL "DROP TABLE a") (strL "\nCREATE INDEX i ON t(c)") 0
      (by decide) (by decide),
   trailing_statement_included.2 (strL "DROP TABLE x") 0 (by decide) (by decide)⟩

/-! ## Claim C2: `DROP TABLE` statements -/

/-- Counterexample to C2 as stated: the statement `XDROP TABLEY` contains
the substring `DROP TABLE` (case-insensitively), yet `analyze` yields no
finding at all — the rule pattern `\bDROP\s+TABLE\b` requires word
boundaries around the keywords. -/
theorem ban001_substring_cex :
    containsCI (strL "DROP TABLE") (strL "XDROP TABLEY") = true ∧
    split_statements (strL "XDROP TABLEY") = [(strL "XDROP TABLEY", 1)] ∧
    analyze (strL "XDROP TABLEY") 0 = [] := by
  refine ⟨by decide, by decide, by decide⟩

/-- C2 as amended: for every statement of the segmented script on which the
BAN001 pattern `\bDROP\s+TABLE\b` matches (i.e. `DROP TABLE` occurs as
whole, whitespace-separated words, case-insensitively), `analyze` yields at
least one finding with `rule_id = BAN001`, `severity = critical` and
`lock_type = ACCESS EXCLUSIVE`. -/
theorem ban001_match_yields_finding :
    ∀ (sql : List Char) (rows : Int) (stmt : List Char) (line : Nat),
      (stmt, line) ∈ split_statements sql →
      search ruleBAN001.pat stmt = true →
      ∃ f ∈ analyze sql rows,
        f.rule_id = "BAN001" ∧ f.severity = "critical" ∧ f.lock_type = "ACCESS EXCLUSIVE" := by
  intro sql rows stmt line hmem hs
  refine ⟨mkFinding ruleBAN001 stmt line rows, ?_, rfl, rfl, rfl⟩
  rw [analyze]
  apply List.mem_flatMap.mpr
  refine ⟨(stmt, line), hmem, ?_⟩
  rw [findingsFor]
  apply List.mem_filterMap.mpr
  refine ⟨ruleBAN001, by simp [RULES], ?_⟩
  rw [if_pos hs]

/-- Witness for the amended C2, with a lower-case `drop table` statement
(the match is case-insensitive). -/
theorem ban001_match_yields_finding_witness :
    ∃ f ∈ analyze (strL "drop table users;") 0,
      f.rule_id = "BAN001" ∧ f.severity = "critical" ∧ f.lock_type = "ACCESS EXCLUSIVE" :=
  ban001_match_yields_finding (strL "drop table users;") 0 (strL "drop table users") 1
    (by decide) (by decide)

/-! ## Claim C6: LCK001 scans the whole rest of the statement for DEFAULT -/

/-- C6: adding a `NOT NULL` column with no `DEFAULT` anywhere later in the
statement yields an LCK001 finding, while the same statement with a
trailing `DEFAULT` clause — here appended at the very end, several tokens
after `NOT NULL` — yields no finding at all: the absence check covers the
entire remaining normalized statement, not just the text right after the
trigger. -/
theorem lck001_default_whole_statement :
    (analyze (strL "ALTER TABLE orders ADD COLUMN qty integer NOT NULL" ++ strL ";") 0).map
        (fun f => f.rule_id) = ["LCK001"] ∧
    analyze (strL "ALTER TABLE orders ADD COLUMN qty integer NOT NULL" ++
      strL " CHECK (qty > 0) DEFAULT 5;") 0 = [] := by
  refine ⟨by decide, by decide⟩

/-! ## Claim C7: emission order of findings -/

theorem pairwise_enumFrom_fst {α : Type} (l : List α) :
    ∀ n : Nat, List.Pairwise (fun a b : Nat × α => a.1 < b.1) (l.enumFrom n) := by
  induction l with
  | nil => intro n; simp
  | cons x xs ih =>
    intro n
    rw [List.enumFrom_cons]
    refine List.Pairwise.cons ?_ (ih (n + 1))
    intro y hy
    obtain ⟨i, a⟩ := y
    have hle := (List.mk_mem_enumFrom_iff_le_and_getElem?_sub.mp hy).1
    show n < i
    omega

theorem filterMap_eq_enum_filter_map (stmt : List Char) (line : Nat) (rows : Int) :
    ∀ (rs : List Rule) (n : Nat),
      ((rs.enumFrom n).filter fun jr => search jr.2.pat stmt).map
        (fun jr => mkFinding jr.2 stmt line rows) =
      rs.filterMap fun r =>
        if search r.pat stmt then some (mkFinding r stmt line rows) else none := by
  intro rs
  induction rs with
  | nil => intro n; rfl
  | cons r rs ih =>
    intro n
    rw [List.enumFrom_cons]
    by_cases hs : search r.pat stmt = true
    · rw [List.filter_cons_of_pos (by exact hs), List.map_cons, ih (n + 1),
        List.filterMap_cons_some (by rw [if_pos hs])]
    · rw [List.filter_cons_of_neg (by exact hs), ih (n + 1),
        List.filterMap_cons_none (by rw [if_neg hs])]

theorem flatMap_enumFrom_snd {β γ : Type} (F : β → List γ) :
    ∀ (l : List β) (n : Nat),
      (l.enumFrom n).flatMap (fun p => F p.2) = l.flatMap F := by
  intro l
  induction l with
  | nil => intro n; rfl
  | cons x xs ih =>
    intro n
    rw [List.enumFrom_cons, List.flatMap_cons, List.flatMap_cons, ih (n + 1)]

/-- C7: `analyze` is the projection of the index-instrumented `analyzeIdx`
(first conjunct); the emitted `(statement index, rule index)` pairs are
strictly increasing in lexicographic order, i.e. findings are ordered by
statement and, within one statement, by rule-catalog order (second
conjunct); and every rule of the catalog whose pattern matches a statement
contributes a finding for that statement — every rule is tested against
every statement, with no early exit (third conjunct). -/
theorem analyze_ordering :
    ∀ (sql : List Char) (rows : Int),
      analyze sql rows = (analyzeIdx sql rows).map (fun t => t.2.2) ∧
      List.Pairwise (fun a b : Nat × Nat × Finding =>
        a.1 < b.1 ∨ (a.1 = b.1 ∧ a.2.1 < b.2.1)) (analyzeIdx sql rows) ∧
      (∀ (i j : Nat) (sl : List Char × Nat) (r : Rule),
        (split_statements sql)[i]? = some sl →
        RULES[j]? = some r →
        search r.pat sl.1 = true →
        (i, j, mkFinding r sl.1 sl.2 rows) ∈ analyzeIdx sql rows) := by
  intro sql rows
  refine ⟨?_, ?_, ?_⟩
  · rw [analyze, analyzeIdx, List.map_flatMap]
    have hin : (fun isl : Nat × (List Char × Nat) =>
        ((RULES.enum.filter fun jr => search jr.2.pat isl.2.1).map
          (fun jr => (isl.1, jr.1, mkFinding jr.2 isl.2.1 isl.2.2 rows))).map
            (fun t => t.2.2)) =
        fun isl => findingsFor isl.2.1 isl.2.2 rows := by
      funext isl
      rw [List.map_map, findingsFor]
      exact filterMap_eq_enum_filter_map isl.2.1 isl.2.2 rows RULES 0
    rw [hin]
    exact (flatMap_enumFrom_snd (fun sl => findingsFor sl.1 sl.2 rows)
      (split_statements sql) 0).symm
  · rw [analyzeIdx]
    apply List.pairwise_flatMap.mpr
    constructor
    · intro isl _
      apply List.pairwise_map.mpr
      exact ((pairwise_enumFrom_fst RULES 0).filter _).imp
        (fun hab => Or.inr ⟨rfl, hab⟩)
    · apply (pairwise_enumFrom_fst (split_statements sql) 0).imp
      intro a b hab x hx y hy
      rcases List.mem_map.mp hx with ⟨jra, _, hea⟩
      rcases List.mem_map.mp hy with ⟨jrb, _, heb⟩
      rw [← hea, ← heb]
      exact Or.inl hab
  · intro i j sl r hi hj hs
    rw [analyzeIdx]
    apply List.mem_flatMap.mpr
    refine ⟨(i, sl), List.mk_mem_enum_iff_getElem?.mpr (by rw [hi]), ?_⟩
    apply List.mem_map.mpr
    refine ⟨(j, r), List.mem_filter.mpr ⟨List.mk_mem_enum_iff_getElem?.mpr (by rw [hj]), hs⟩, rfl⟩

/-- Witness for C7: a single statement with both a `NOT NULL` column
addition and a foreign-key addition produces findings for rule index 3
(LCK001) and rule index 5 (LCK003) for statement index 0. -/
theorem analyze_ordering_witness :
    (0, 3, mkFinding ruleLCK001
        (strL "ALTER TABLE t ADD COLUMN c integer NOT NULL, ADD FOREIGN KEY (c) REFERENCES u(id)")
        1 0) ∈
      analyzeIdx
        (strL "ALTER TABLE t ADD COLUMN c integer NOT NULL, ADD FOREIGN KEY (c) REFERENCES u(id);")
        0 ∧
    (0, 5, mkFinding ruleLCK003
        (strL "ALTER TABLE t ADD COLUMN c integer NOT NULL, ADD FOREIGN KEY (c) REFERENCES u(id)")
        1 0) ∈
      analyzeIdx
        (strL "ALTER TABLE t ADD COLUMN c integer NOT NULL, ADD FOREIGN KEY (c) REFERENCES u(id);")
        0 :=
  ⟨(analyze_ordering
      (strL "ALTER TABLE t ADD COLUMN c integer NOT NULL, ADD FOREIGN KEY (c) REFERENCES u(id);")
      0).2.2 0 3
      (strL "ALTER TABLE t ADD COLUMN c integer NOT NULL, ADD FOREIGN KEY (c) REFERENCES u(id)", 1)
      ruleLCK001 (by decide) (by rfl) (by decide),
   (analyze_ordering
      (strL "ALTER TABLE t ADD COLUMN c integer NOT NULL, ADD FOREIGN KEY (c) REFERENCES u(id);")
      0).2.2 0 5
      (strL "ALTER TABLE t ADD COLUMN c integer NOT NULL, ADD FOREIGN KEY (c) REFERENCES u(id)", 1)
      ruleLCK003 (by decide) (by rfl) (by decide)⟩

end MigSafe
